import Mathlib

set_option allowUnsafeReducibility true
attribute [semireducible] Rat.ofScientific Rat.div Rat.sub Rat.add Rat.mul Rat.inv Rat.neg Rat.normalize

/-!
Shallow embedding of the PNodes gossip analytics engine.

Sources embedded:
* `src/types.ts` — the `PNode` record and its status enum.
* `src/health.ts` — `clamp01`, `computeNodeHealth`, `computeReputation`.
* `src/unnamed/part_000` (partitions module) — `getRegionKey`,
  `computeRegionStats`, `analyzeFailures`.
* `src/unnamed/part_002` (hooks module) — the snapshot-store append
  (`usePNodeData`, `next.slice(-500)`).
* `src/unnamed/part_007` (App) — the time-travel resolver's synthetic
  snapshot generation.

Modelling conventions:
* JavaScript numbers are embedded as `ℚ`.  `Date.now()` becomes an explicit
  `now : ℚ` argument (milliseconds).
* A node's `lastSeen` field (string or number in TS, read through
  `new Date(...).getTime()`) is embedded as `Option ℚ`: `some t` is a
  timestamp that parses to `t` ms, `none` is an unparseable timestamp
  (`getTime()` returns `NaN`).
* Optional telemetry fields read through `??`-chains over several spellings
  are embedded as one `Option ℚ` field each; `x ?? d` becomes `x.getD d`.
* The JS truthiness idiom `x || y` on numbers (`peerDiversity || 0.5`,
  `getTime() || now`) is embedded by `jsOrQ`, which tests for `0` (the only
  falsy rational; `NaN` is already modelled away by `Option`).
* `Math.log10` is an external transcendental; it is embedded as an explicit
  function argument `log10 : ℚ → ℚ` to keep the development computable.
* JS `Map` (insertion-ordered, `set` replaces in place, `get` returns the
  most recently set value) is embedded as an association list with
  `amGet` / `amSet`; `forEach` iteration order is list order.
-/

/-- Lifecycle status of a pNode (`src/types.ts`). -/
inductive Status where
  | online
  | unknown
  | offline
deriving DecidableEq, Repr

/-- A node record (`src/types.ts` `PNode`), together with the optional
telemetry fields that the scoring code reads off the raw object. -/
structure PNode where
  pnodeId : String
  latitude : ℚ
  longitude : ℚ
  status : Status
  storageUsed : ℚ
  version : String
  lastSeen : Option ℚ
  peersSeen : Option ℚ
  peerDiversity : Option ℚ
  responseLatency : Option ℚ
  uptime : Option ℚ
  dataAvailability : Option ℚ
  versionFreshness : Option ℚ
deriving DecidableEq, Repr

/-- A roster snapshot (`src/unnamed/part_002` `PNodeSnapshot`). -/
structure PNodeSnapshot where
  timestamp : ℚ
  nodes : List PNode
  synthetic : Bool := false
deriving DecidableEq, Repr

/-- JS `x || y` on numbers: `y` when `x` is falsy (i.e. `0`), else `x`. -/
def jsOrQ (x y : ℚ) : ℚ := if x = 0 then y else x

/-- `clamp01` from `src/health.ts`. -/
def clamp01 (x : ℚ) : ℚ := max 0 (min 1 x)

/-- Health tier of a score (`src/health.ts` lines 92–94). -/
inductive Tier where
  | good
  | warning
  | bad
deriving DecidableEq, Repr

/-- Tier from a score: `< 0.4 → bad`, `< 0.7 → warning`, else `good`. -/
def tierOf (score : ℚ) : Tier :=
  if score < 0.4 then Tier.bad
  else if score < 0.7 then Tier.warning
  else Tier.good

/-- `HealthDetails` from `src/health.ts`. -/
structure HealthDetails where
  score : ℚ
  tier : Tier
  reasons : List String
deriving DecidableEq, Repr

inductive ReputationTier where
  | gold
  | silver
  | risky
deriving DecidableEq, Repr

/-- `ReputationDetails` from `src/health.ts`. -/
structure ReputationDetails where
  score : ℚ
  tier : ReputationTier
deriving DecidableEq, Repr

/-- The diversity sub-score: `clamp01(peerDiversity || 0.5)` where
`peerDiversity = raw ?? 0` (`src/health.ts` lines 31 and 44). -/
def diversityScoreOf (n : PNode) : ℚ :=
  clamp01 (jsOrQ (n.peerDiversity.getD 0) 0.5)

/-- The latency sub-score (`src/health.ts` lines 48–57): default `0.7`,
else `clamp01 (1 - (ms - 50) / 450)`. -/
def latencyScoreOf (n : PNode) : ℚ :=
  match n.responseLatency with
  | none => 0.7
  | some ms => clamp01 (1 - (ms - 50) / 450)

/-- The freshness sub-score (`src/health.ts` lines 67–75): `0.5` when the
timestamp does not parse, else `clamp01 (1 - ageSec / 600)`. -/
def freshnessScoreOf (now : ℚ) (n : PNode) : ℚ :=
  match n.lastSeen with
  | none => 0.5
  | some ms => clamp01 (1 - ((now - ms) / 1000) / 600)

/-- The status prior (`src/health.ts` lines 78–79). -/
def statusBaseOf : Status → ℚ
  | Status.online => 0.9
  | Status.unknown => 0.6
  | Status.offline => 0.2

/-- `computeNodeHealth` from `src/health.ts`.  `now` is `Date.now()` in ms
and `log10` embeds `Math.log10`. -/
def computeNodeHealth (now : ℚ) (log10 : ℚ → ℚ) (n : PNode) : HealthDetails :=
  let peersSeen := n.peersSeen.getD 0
  let peersScore := clamp01 (log10 (1 + peersSeen) / 2)
  let peersReasons := if peersSeen < 3 then ["Low peer count in gossip"] else []
  let diversityScore := diversityScoreOf n
  let diversityReasons :=
    if diversityScore < 0.4 then ["Peers lack geographic / ASN diversity"] else []
  let latencyScore := latencyScoreOf n
  let latencyReasons :=
    match n.responseLatency with
    | none => []
    | some ms => if ms > 350 then ["High gossip response latency"] else []
  let uptimeScore := clamp01 (n.uptime.getD 0.8)
  let uptimeReasons := if uptimeScore < 0.8 then ["Uptime below target SLA"] else []
  let dataScore := clamp01 (n.dataAvailability.getD 0.9)
  let dataReasons :=
    if dataScore < 0.8 then ["Data availability below network baseline"] else []
  let freshnessScore := freshnessScoreOf now n
  let freshnessReasons :=
    match n.lastSeen with
    | none => []
    | some ms =>
        if (now - ms) / 1000 > 600 then ["Not seen in recent gossip window"] else []
  let statusBase := statusBaseOf n.status
  let score := clamp01 (
    statusBase * 0.25 +
      peersScore * 0.15 +
      diversityScore * 0.15 +
      latencyScore * 0.15 +
      uptimeScore * 0.15 +
      dataScore * 0.1 +
      freshnessScore * 0.05)
  let tier := tierOf score
  let reasons := peersReasons ++ diversityReasons ++ latencyReasons ++
    uptimeReasons ++ dataReasons ++ freshnessReasons
  let reasons :=
    if reasons = [] ∧ tier = Tier.good then
      ["Healthy gossip connectivity and recent activity"]
    else reasons
  { score := score, tier := tier, reasons := reasons }

/-- `computeReputation` from `src/health.ts`. -/
def computeReputation (n : PNode) (health : HealthDetails) : ReputationDetails :=
  let uptimeScore := clamp01 (n.uptime.getD 0.8)
  let storageScore := clamp01 (n.dataAvailability.getD 0.9)
  let latencyScore := latencyScoreOf n
  let freshnessScore := clamp01 (n.versionFreshness.getD 0.7)
  let raw := clamp01 (
    uptimeScore * 0.35 +
      storageScore * 0.35 +
      latencyScore * 0.12 +
      freshnessScore * 0.12 +
      health.score * 0.06)
  let tier :=
    if raw ≥ 0.8 then ReputationTier.gold
    else if raw < 0.5 then ReputationTier.risky
    else ReputationTier.silver
  { score := raw, tier := tier }

/-! ### The partitions module (`src/unnamed/part_000`) -/

/-- Anomaly tags (`NodeAnomaly`). -/
inductive NodeAnomaly where
  | sudden_drop
  | isolated
  | black_hole
deriving DecidableEq, Repr

/-- Association-list embedding of a JS `Map`: list order is insertion
order. -/
abbrev AMap (α : Type) : Type := List (String × α)

/-- `Map.get`: the value most recently `set` for the key.  Because `amSet`
replaces in place, the first matching entry carries that value. -/
def amGet {α : Type} (m : AMap α) (k : String) : Option α :=
  (List.find? (fun p => p.1 = k) m).map Prod.snd

/-- `Map.set`: replace in place when the key is present (keeping its
insertion position), else append at the end. -/
def amSet {α : Type} (m : AMap α) (k : String) (v : α) : AMap α :=
  if List.any m (fun p => p.1 = k) then
    List.map (fun p => if p.1 = k then (k, v) else p) m
  else m ++ [(k, v)]

/-- The `list.push(tag); map.set(id, list)` idiom of `analyzeFailures`. -/
def amPush (m : AMap (List NodeAnomaly)) (k : String) (a : NodeAnomaly) :
    AMap (List NodeAnomaly) :=
  amSet m k ((amGet m k).getD [] ++ [a])

/-- The tag list at a key (`map.get(id) ?? []`). -/
def amTags (m : AMap (List NodeAnomaly)) (k : String) : List NodeAnomaly :=
  (amGet m k).getD []

/-- JS `Math.round`: round half toward positive infinity. -/
def jsRound (q : ℚ) : ℤ := ⌊q + 1 / 2⌋

/-- `getRegionKey` (`src/unnamed/part_000` lines 18–23):
latitude/longitude rounded to the nearest 10-degree multiple, joined by a
colon. -/
def getRegionKey (n : PNode) : String :=
  toString (jsRound (n.latitude / 10) * 10) ++ ":" ++
    toString (jsRound (n.longitude / 10) * 10)

/-- `FailureAnalysis` (`src/unnamed/part_000` lines 6–10). -/
structure FailureAnalysis where
  anomaliesById : AMap (List NodeAnomaly)
  partitionSuspected : Bool
  partitionReason : Option String

/-- `new Map(currentNodes.map(n => [n.pnodeId, n])).get(id)`: with
duplicate ids the last entry wins. -/
def lookupNode (nodes : List PNode) (id : String) : Option PNode :=
  List.find? (fun n => n.pnodeId = id) nodes.reverse

/-- `ageMs` from `analyzeFailures` (lines 57–61): `none` stands for the
`Infinity` returned on an unparseable timestamp. -/
def ageMsOf (now : ℚ) (n : PNode) : Option ℚ :=
  match n.lastSeen with
  | none => none
  | some ts => some (now - ts)

/-- `ageMs(n) > limit`, where an unparseable timestamp (`Infinity`)
exceeds every bound. -/
def ageExceeds (now : ℚ) (n : PNode) (limit : ℚ) : Bool :=
  match ageMsOf now n with
  | none => true
  | some a => a > limit

/-- Whether a previous-snapshot node triggers the sudden-drop rule against
the current roster (lines 67–72). -/
def suddenDropCond (currentNodes : List PNode) (prev : PNode) : Bool :=
  decide (prev.status = Status.online) &&
    (match lookupNode currentNodes prev.pnodeId with
     | none => true
     | some nowNode => decide (nowNode.status = Status.offline))

/-- The sudden-drop pass (lines 66–78): fold over the previous snapshot's
roster, pushing `sudden_drop` (without deduplication) for each hit. -/
def suddenDropPass (currentNodes : List PNode) (prevNodes : List PNode)
    (m : AMap (List NodeAnomaly)) : AMap (List NodeAnomaly) :=
  List.foldl
    (fun acc prev =>
      if suddenDropCond currentNodes prev then
        amPush acc prev.pnodeId NodeAnomaly.sudden_drop
      else acc)
    m prevNodes

/-- The region tally of `analyzeFailures` (lines 81–88): per region key,
`(total, offline)` counts over the current roster. -/
def regionTotalsOf (nodes : List PNode) : AMap (ℕ × ℕ) :=
  List.foldl
    (fun acc n =>
      let key := getRegionKey n
      let stats := (amGet acc key).getD (0, 0)
      amSet acc key
        (stats.1 + 1, if n.status = Status.offline then stats.2 + 1 else stats.2))
    [] nodes

/-- Isolated regions (lines 90–95): keys whose bucket has ≥ 5 nodes and an
offline ratio ≥ 0.6, in map iteration (= insertion) order. -/
def isolatedRegionsOf (nodes : List PNode) : List String :=
  List.map Prod.fst
    (List.filter
      (fun p => decide (5 ≤ p.2.1 ∧ (0.6 : ℚ) ≤ (p.2.2 : ℚ) / (p.2.1 : ℚ)))
      (regionTotalsOf nodes))

/-- The isolation pass (lines 98–107): tag every current node whose region
key is isolated, deduplicating the tag. -/
def isolatedPass (currentNodes : List PNode) (isolatedRegions : List String)
    (m : AMap (List NodeAnomaly)) : AMap (List NodeAnomaly) :=
  if isolatedRegions = [] then m
  else
    List.foldl
      (fun acc n =>
        if getRegionKey n ∈ isolatedRegions then
          if NodeAnomaly.isolated ∈ (amGet acc n.pnodeId).getD [] then acc
          else amPush acc n.pnodeId NodeAnomaly.isolated
        else acc)
      m currentNodes

/-- Whether a current node triggers the black-hole rule (lines 110–121):
stale last-seen, fewer than 2 peers, or availability below 0.5.  The
telemetry defaults here (`?? 0`, `?? 1`) differ from the health scorer's. -/
def blackHoleCond (now : ℚ) (n : PNode) : Bool :=
  let peersSeen := n.peersSeen.getD 0
  let dataAvailability := n.dataAvailability.getD 1
  ageExceeds now n (10 * 60 * 1000) || peersSeen < 2 || dataAvailability < 0.5

/-- The black-hole pass (lines 110–129), deduplicating the tag. -/
def blackHolePass (now : ℚ) (currentNodes : List PNode)
    (m : AMap (List NodeAnomaly)) : AMap (List NodeAnomaly) :=
  List.foldl
    (fun acc n =>
      if blackHoleCond now n then
        if NodeAnomaly.black_hole ∈ (amGet acc n.pnodeId).getD [] then acc
        else amPush acc n.pnodeId NodeAnomaly.black_hole
      else acc)
    m currentNodes

/-- The sudden-drop stage of the anomaly map: the pass runs only when both
`snapshots[len-2]` and `snapshots[len-1]` exist (`prevSnap && latestSnap`). -/
def afterDropOf (snapshots : List PNodeSnapshot)
    (currentNodes : List PNode) : AMap (List NodeAnomaly) :=
  match List.get? snapshots.reverse 1, List.get? snapshots.reverse 0 with
  | some prev, some _ => suddenDropPass currentNodes prev.nodes []
  | _, _ => []

/-- The anomaly map of `analyzeFailures`: sudden-drop, isolation and
black-hole passes in order. -/
def anomaliesOf (now : ℚ) (snapshots : List PNodeSnapshot)
    (currentNodes : List PNode) : AMap (List NodeAnomaly) :=
  blackHolePass now currentNodes
    (isolatedPass currentNodes (isolatedRegionsOf currentNodes)
      (afterDropOf snapshots currentNodes))

/-- `offlineCount` (line 135). -/
def offlineCountOf (nodes : List PNode) : ℕ :=
  (List.filter (fun n => decide (n.status = Status.offline)) nodes).length

/-- `onlineCount` (line 136). -/
def onlineCountOf (nodes : List PNode) : ℕ :=
  (List.filter (fun n => decide (n.status = Status.online)) nodes).length

/-- `manySuddenDrops` (lines 139–141): the number of map entries whose tag
list contains `sudden_drop`. -/
def suddenDropTally (m : AMap (List NodeAnomaly)) : ℕ :=
  (List.filter (fun p => decide (NodeAnomaly.sudden_drop ∈ p.2)) m).length

/-- The three prioritized partition rules (lines 143–152), before the
probable-cause fallback. -/
def rawPartitionVerdict (currentNodes : List PNode)
    (anoms : AMap (List NodeAnomaly)) : Bool × Option String :=
  let isolatedRegions := isolatedRegionsOf currentNodes
  let offlineCount := offlineCountOf currentNodes
  let onlineCount := onlineCountOf currentNodes
  let total := currentNodes.length
  let manySuddenDrops := suddenDropTally anoms
  if isolatedRegions ≠ [] then
    (true, some ("Region outage or isolation in " ++ String.intercalate ", " isolatedRegions))
  else if 0 < manySuddenDrops ∧ (0.2 : ℚ) < (manySuddenDrops : ℚ) / (total : ℚ) then
    (true, some "Large set of peers dropped from gossip abruptly")
  else if onlineCount < offlineCount then
    (true, some "Majority of pNodes appear offline or unreachable")
  else (false, none)

/-- `n.version || "unknown"`: JS string truthiness. -/
def versionOrUnknown (n : PNode) : String :=
  if n.version = "" then "unknown" else n.version

/-- The version tally of the fallback (lines 156–160). -/
def versionTally (nodes : List PNode) : AMap ℕ :=
  List.foldl
    (fun acc n =>
      let v := versionOrUnknown n
      amSet acc v ((amGet acc v).getD 0 + 1))
    [] nodes

/-- `sort((a,b) => b[1]-a[1])[0]` of the version tally: a stable sort by
descending count keeps the first-inserted entry among ties, so the head is
the first entry attaining the maximal count. -/
def dominantVersion (nodes : List PNode) : Option (String × ℕ) :=
  List.foldl
    (fun best p =>
      match best with
      | none => some p
      | some b => if b.2 < p.2 then some p else some b)
    none (versionTally nodes)

/-- The probable-cause hint of the fallback branch (lines 155–167). -/
def probableCause (currentNodes : List PNode) : String :=
  let total := currentNodes.length
  match dominantVersion currentNodes with
  | some d =>
      if d.1 ≠ "unknown" ∧ (0.5 : ℚ) < (d.2 : ℚ) / (total : ℚ) then
        "Version skew risk: most nodes report version " ++ d.1
      else "Latency spike or upstream network instability suspected"
  | none => "Latency spike or upstream network instability suspected"

/-- JS `!partitionReason`: true for `null` and for the empty string. -/
def jsFalsyReason (r : Option String) : Bool :=
  match r with
  | none => true
  | some s => s = ""

/-- The `if (partitionSuspected && !partitionReason)` fallback
(lines 155–167). -/
def applyCauseFallback (currentNodes : List PNode)
    (v : Bool × Option String) : Bool × Option String :=
  if v.1 && jsFalsyReason v.2 then (v.1, some (probableCause currentNodes)) else v

/-- `analyzeFailures` (`src/unnamed/part_000` lines 40–170). -/
def analyzeFailures (now : ℚ) (snapshots : List PNodeSnapshot)
    (currentNodes : List PNode) : FailureAnalysis :=
  if currentNodes = [] then
    { anomaliesById := [], partitionSuspected := false, partitionReason := none }
  else
    let anoms := anomaliesOf now snapshots currentNodes
    let verdict := applyCauseFallback currentNodes (rawPartitionVerdict currentNodes anoms)
    { anomaliesById := anoms, partitionSuspected := verdict.1,
      partitionReason := verdict.2 }

/-- `analyzeFailures` with the probable-cause fallback removed; used to
state that the fallback branch is unreachable. -/
def analyzeFailuresNoFallback (now : ℚ) (snapshots : List PNodeSnapshot)
    (currentNodes : List PNode) : FailureAnalysis :=
  if currentNodes = [] then
    { anomaliesById := [], partitionSuspected := false, partitionReason := none }
  else
    let anoms := anomaliesOf now snapshots currentNodes
    let verdict := rawPartitionVerdict currentNodes anoms
    { anomaliesById := anoms, partitionSuspected := verdict.1,
      partitionReason := verdict.2 }

/-- The anomaly tags of a node in a `FailureAnalysis`
(`anomaliesById.get(id) ?? []`). -/
def tagsOf (fa : FailureAnalysis) (id : String) : List NodeAnomaly :=
  amTags fa.anomaliesById id

/-! ### Snapshot store (`src/unnamed/part_002`, `usePNodeData`) -/

/-- The snapshot-store append (`src/unnamed/part_002` lines 184–191):
`[...prev, snap].slice(-500)` keeps the last 500 entries. -/
def appendSnapshot (prev : List PNodeSnapshot) (s : PNodeSnapshot) :
    List PNodeSnapshot :=
  let next := prev ++ [s]
  next.drop (next.length - 500)

/-! ### Time-travel resolver (`src/unnamed/part_007`, `App`) -/

/-- The three non-live time modes. -/
inductive TimeMode where
  | oneHour
  | oneDay
  | sevenDays
deriving DecidableEq, Repr

/-- `windowSec` (`src/unnamed/part_007` lines 60–61), in seconds. -/
def windowSecOf : TimeMode → ℚ
  | TimeMode.oneHour => 3600
  | TimeMode.oneDay => 86400
  | TimeMode.sevenDays => 7 * 86400

/-- The deterministic jitter
`((idx * 7919 + i * 104729) % 1000) / 1000` (line 79). -/
def jitterOf (idx i : ℕ) : ℚ :=
  (((idx * 7919 + i * 104729) % 1000 : ℕ) : ℚ) / 1000

/-- The per-node mutation of one synthetic step (lines 77–91): a possible
one-step status downgrade and a last-seen perturbation.
`new Date(clone.lastSeen).getTime() || now` falls back to `now` when the
timestamp is unparseable (`NaN`) or zero (both falsy). -/
def mutateNode (now windowSec : ℚ) (i idx : ℕ) (n : PNode) : PNode :=
  let jitter := jitterOf idx i
  let status :=
    if n.status = Status.online ∧ (0.9 : ℚ) < jitter then Status.unknown
    else if n.status = Status.unknown ∧ (0.8 : ℚ) < jitter then Status.offline
    else n.status
  let offsetSec := (jitter - 0.5) * windowSec * 0.4
  let baseLastSeen :=
    match n.lastSeen with
    | none => now
    | some v => if v = 0 then now else v
  { n with status := status, lastSeen := some (baseLastSeen - offsetSec * 1000) }

/-- One synthetic snapshot (lines 74–95): timestamp
`oldest + ((i+1)/12) * windowMs` and the mutated roster. -/
def synthSnapshot (now windowSec : ℚ) (nodes : List PNode) (i : ℕ) :
    PNodeSnapshot :=
  { timestamp := (now - windowSec * 1000) + (((i : ℚ) + 1) / 12) * (windowSec * 1000),
    nodes := List.map (fun p => mutateNode now windowSec i p.1 p.2) nodes.enum,
    synthetic := true }

/-- The time-travel resolver of the `App` `useMemo` (lines 50–96), for the
non-live modes: an empty snapshot store short-circuits to the live view
(`availableSnapshots = []`, not synthetic); otherwise the stored snapshots
are filtered to the window and, when none fall inside it, 12 synthetic
snapshots are generated.  Returns `(availableSnapshots,
isSyntheticHistory)`. -/
def resolveWindow (now : ℚ) (mode : TimeMode)
    (snapshots : List PNodeSnapshot) (nodes : List PNode) :
    List PNodeSnapshot × Bool :=
  if snapshots = [] then ([], false)
  else
    let windowSec := windowSecOf mode
    let windowSnapshots :=
      List.filter (fun s => decide (now - s.timestamp ≤ windowSec * 1000)) snapshots
    if windowSnapshots = [] then
      (List.map (synthSnapshot now windowSec nodes) (List.range 12), true)
    else (windowSnapshots, false)

/-- Status downgrade along `online → unknown → offline`, by at most one
step (including no change). -/
def downgradeOk : Status → Status → Prop
  | s, t => t = s ∨ (s = Status.online ∧ t = Status.unknown) ∨
      (s = Status.unknown ∧ t = Status.offline)

/-! ### Concrete nodes and rosters used by scenarios and witnesses -/

/-- A node with nominal telemetry, placed by coordinates. -/
def basicNode (id : String) (lat lon : ℚ) (st : Status) : PNode :=
  { pnodeId := id, latitude := lat, longitude := lon, status := st,
    storageUsed := 0, version := "1.0", lastSeen := some 0,
    peersSeen := some 5, peerDiversity := some 1, responseLatency := some 100,
    uptime := some 1, dataAvailability := some 1, versionFreshness := some 1 }

/-- The node of the spec's §8 scenario: `offline`, last seen 20 minutes
ago, zero peers seen, all other optional telemetry absent. -/
def scenarioNode (now : ℚ) : PNode :=
  { pnodeId := "n1", latitude := 0, longitude := 0, status := Status.offline,
    storageUsed := 0, version := "1.0", lastSeen := some (now - 20 * 60 * 1000),
    peersSeen := some 0, peerDiversity := none, responseLatency := none,
    uptime := none, dataAvailability := none, versionFreshness := none }

/-- A node whose `lastSeen` does not parse (`getTime()` is `NaN`). -/
def staleNode : PNode :=
  { pnodeId := "s1", latitude := 0, longitude := 0, status := Status.online,
    storageUsed := 0, version := "1.0", lastSeen := none,
    peersSeen := some 5, peerDiversity := none, responseLatency := none,
    uptime := none, dataAvailability := none, versionFreshness := none }

/-- A 5-node single-bucket roster with 3 offline and 2 online nodes: it has
an isolated region and a majority of offline nodes at once. -/
def isolatedRoster : List PNode :=
  [basicNode "a" 0 0 Status.offline, basicNode "b" 0 0 Status.offline,
   basicNode "c" 0 0 Status.offline, basicNode "d" 0 0 Status.online,
   basicNode "e" 0 0 Status.online]

/-- A 10-node roster: bucket "0:0" holds 5 nodes with 3 offline, bucket
"40:0" holds 5 nodes with 2 offline. -/
def twoBucketRoster : List PNode :=
  [basicNode "a" 0 0 Status.offline, basicNode "b" 0 0 Status.offline,
   basicNode "c" 0 0 Status.offline, basicNode "d" 0 0 Status.online,
   basicNode "e" 0 0 Status.online,
   basicNode "f" 40 0 Status.offline, basicNode "g" 40 0 Status.offline,
   basicNode "h" 40 0 Status.online, basicNode "i" 40 0 Status.online,
   basicNode "j" 40 0 Status.online]

/-- Each of the three tagging passes steps by either leaving the map alone
or pushing one fixed tag at some key. -/
def PushesOnly (t : NodeAnomaly)
    (step : AMap (List NodeAnomaly) → PNode → AMap (List NodeAnomaly)) : Prop :=
  ∀ m n, step m n = m ∨ ∃ k, step m n = amPush m k t

/-! ## Lemmas about the association-list embedding of JS `Map` -/

theorem amGet_nil {α : Type} (k : String) : amGet ([] : AMap α) k = none := rfl

/-- `find?` by key over the in-place replacement at that key finds the new
value, provided the key occurs. -/
theorem find?_replace_self {α : Type} (k : String) (v : α) :
    ∀ m : List (String × α), List.any m (fun p => p.1 = k) = true →
      List.find? (fun p => p.1 = k)
        (List.map (fun p => if p.1 = k then (k, v) else p) m) = some (k, v)
  | [], h => by simp at h
  | hd :: tl, h => by
      by_cases hk : hd.1 = k
      · rw [List.map_cons, if_pos hk]
        exact List.find?_cons_of_pos _ (by simp)
      · have htl : List.any tl (fun p => p.1 = k) = true := by
          rcases (List.any_eq_true).mp h with ⟨p, hp, hpk⟩
          rcases List.mem_cons.mp hp with rfl | hp
          · exact absurd (of_decide_eq_true hpk) hk
          · exact (List.any_eq_true).mpr ⟨p, hp, hpk⟩
        rw [List.map_cons, if_neg hk, List.find?_cons_of_neg _ (by simpa using hk)]
        exact find?_replace_self k v tl htl

/-- `find?` by one key is untouched by the in-place replacement at another
key. -/
theorem find?_replace_other {α : Type} {k k' : String} (v : α) (h : k ≠ k') :
    ∀ m : List (String × α),
      List.find? (fun p => p.1 = k)
          (List.map (fun p => if p.1 = k' then (k', v) else p) m)
        = List.find? (fun p => p.1 = k) m
  | [] => rfl
  | hd :: tl => by
      by_cases hk' : hd.1 = k'
      · have p1 : ¬ ((k', v).1 = k) := fun hh => h (hh.symm)
        have p2 : ¬ (hd.1 = k) := by rw [hk']; exact fun hh => h (hh.symm)
        rw [List.map_cons, if_pos hk', List.find?_cons_of_neg _ (by simpa using p1),
          List.find?_cons_of_neg _ (by simpa using p2)]
        exact find?_replace_other v h tl
      · rw [List.map_cons, if_neg hk']
        by_cases hk : hd.1 = k
        · rw [List.find?_cons_of_pos _ (by simpa using hk),
            List.find?_cons_of_pos _ (by simpa using hk)]
        · rw [List.find?_cons_of_neg _ (by simpa using hk),
            List.find?_cons_of_neg _ (by simpa using hk)]
          exact find?_replace_other v h tl

theorem amGet_amSet_self {α : Type} (m : AMap α) (k : String) (v : α) :
    amGet (amSet m k v) k = some v := by
  unfold amSet
  by_cases h : List.any m (fun p => p.1 = k)
  · rw [if_pos h]
    unfold amGet
    rw [find?_replace_self k v m h]
    rfl
  · rw [if_neg h]
    have hfalse : List.any m (fun p => decide (p.1 = k)) = false :=
      Bool.eq_false_iff.mpr h
    have hnone : List.find? (fun p => p.1 = k) m = none :=
      List.find?_eq_none.mpr (fun p hp => (List.any_eq_false).mp hfalse p hp)
    unfold amGet
    rw [List.find?_append, hnone]
    simp

theorem amGet_amSet_other {α : Type} (m : AMap α) (k k' : String) (v : α)
    (h : k ≠ k') : amGet (amSet m k' v) k = amGet m k := by
  unfold amSet
  by_cases hany : List.any m (fun p => p.1 = k')
  · rw [if_pos hany]
    unfold amGet
    rw [find?_replace_other v h m]
  · rw [if_neg hany]
    have hlast : List.find? (fun p => p.1 = k) [(k', v)] = none := by
      have : ¬ ((k', v).1 = k) := fun hh => h hh.symm
      simp [List.find?, this]
    unfold amGet
    rw [List.find?_append, hlast]
    simp

theorem amTags_amPush_self (m : AMap (List NodeAnomaly)) (k : String)
    (a : NodeAnomaly) : amTags (amPush m k a) k = amTags m k ++ [a] := by
  unfold amPush amTags
  rw [amGet_amSet_self]
  rfl

theorem amTags_amPush_other (m : AMap (List NodeAnomaly)) (k k' : String)
    (a : NodeAnomaly) (h : k ≠ k') :
    amTags (amPush m k' a) k = amTags m k := by
  unfold amPush amTags
  rw [amGet_amSet_other _ _ _ _ h]

theorem mem_amTags_amPush {m : AMap (List NodeAnomaly)} {k k' : String}
    {x a : NodeAnomaly} (h : x ∈ amTags m k) :
    x ∈ amTags (amPush m k' a) k := by
  by_cases hk : k = k'
  · subst hk
    rw [amTags_amPush_self]
    exact List.mem_append_left _ h
  · rw [amTags_amPush_other _ _ _ _ hk]
    exact h

theorem mem_amTags_of_amPush {m : AMap (List NodeAnomaly)} {k k' : String}
    {x a : NodeAnomaly} (h : x ∈ amTags (amPush m k' a) k) :
    x ∈ amTags m k ∨ (x = a ∧ k = k') := by
  by_cases hk : k = k'
  · subst hk
    rw [amTags_amPush_self] at h
    rcases List.mem_append.mp h with h1 | h1
    · exact Or.inl h1
    · exact Or.inr ⟨List.mem_singleton.mp h1, rfl⟩
  · rw [amTags_amPush_other _ _ _ _ hk] at h
    exact Or.inl h

/-! ## Generic lemmas about the tagging folds of `analyzeFailures` -/

theorem foldl_tags_mono {t : NodeAnomaly} {step}
    (hstep : PushesOnly t step) (l : List PNode) {m : AMap (List NodeAnomaly)}
    {k : String} {x : NodeAnomaly} (h : x ∈ amTags m k) :
    x ∈ amTags (List.foldl step m l) k := by
  induction l generalizing m with
  | nil => exact h
  | cons hd tl ih =>
      rw [List.foldl_cons]
      apply ih
      rcases hstep m hd with heq | ⟨k', heq⟩
      · rw [heq]; exact h
      · rw [heq]; exact mem_amTags_amPush h

theorem foldl_tags_of_ne {t : NodeAnomaly} {step}
    (hstep : PushesOnly t step) (l : List PNode) {m : AMap (List NodeAnomaly)}
    {k : String} {x : NodeAnomaly} (hx : x ≠ t)
    (h : x ∈ amTags (List.foldl step m l) k) : x ∈ amTags m k := by
  induction l generalizing m with
  | nil => exact h
  | cons hd tl ih =>
      rw [List.foldl_cons] at h
      have h' := ih h
      rcases hstep m hd with heq | ⟨k', heq⟩
      · rwa [heq] at h'
      · rw [heq] at h'
        rcases mem_amTags_of_amPush h' with h1 | ⟨h1, _⟩
        · exact h1
        · exact absurd h1 hx

theorem foldl_tags_invariant {step} {k : String} (l : List PNode)
    (hk : ∀ m n, n ∈ l → amTags (step m n) k = amTags m k)
    (m : AMap (List NodeAnomaly)) :
    amTags (List.foldl step m l) k = amTags m k := by
  induction l generalizing m with
  | nil => rfl
  | cons hd tl ih =>
      rw [List.foldl_cons]
      rw [ih (fun m' n hn => hk m' n (List.mem_cons_of_mem _ hn)) (step m hd)]
      exact hk m hd (List.mem_cons_self _ _)

theorem foldl_tags_of_elem {t : NodeAnomaly} {step}
    (hstep : PushesOnly t step) {l : List PNode} {p : PNode} {k : String}
    (hp : p ∈ l) (hpush : ∀ m, t ∈ amTags (step m p) k)
    (m : AMap (List NodeAnomaly)) : t ∈ amTags (List.foldl step m l) k := by
  induction l generalizing m with
  | nil => cases hp
  | cons hd tl ih =>
      rw [List.foldl_cons]
      rcases List.mem_cons.mp hp with rfl | hp'
      · exact foldl_tags_mono hstep tl (hpush m)
      · exact ih hp' (step m hd)

/-! ## Per-pass lemmas -/

theorem suddenDropPass_pushesOnly (cur : List PNode) :
    PushesOnly NodeAnomaly.sudden_drop
      (fun acc prev =>
        if suddenDropCond cur prev then
          amPush acc prev.pnodeId NodeAnomaly.sudden_drop
        else acc) := by
  intro m n
  by_cases hc : suddenDropCond cur n
  · exact Or.inr ⟨n.pnodeId, by simp [hc]⟩
  · exact Or.inl (by simp [hc])

theorem mem_suddenDropPass_of_mem {cur l : List PNode}
    {m : AMap (List NodeAnomaly)} {k : String} {x : NodeAnomaly}
    (h : x ∈ amTags m k) : x ∈ amTags (suddenDropPass cur l m) k :=
  foldl_tags_mono (suddenDropPass_pushesOnly cur) l h

theorem mem_of_mem_suddenDropPass {cur l : List PNode}
    {m : AMap (List NodeAnomaly)} {k : String} {x : NodeAnomaly} (hx : x ≠ NodeAnomaly.sudden_drop)
    (h : x ∈ amTags (suddenDropPass cur l m) k) : x ∈ amTags m k :=
  foldl_tags_of_ne (suddenDropPass_pushesOnly cur) l hx h

theorem suddenDropPass_tags_eq {cur l : List PNode} {k : String}
    (hk : ∀ n ∈ l, n.pnodeId = k → suddenDropCond cur n = false)
    (m : AMap (List NodeAnomaly)) :
    amTags (suddenDropPass cur l m) k = amTags m k := by
  unfold suddenDropPass
  apply foldl_tags_invariant l
  intro m' n hn
  by_cases hc : suddenDropCond cur n
  · rw [if_pos hc]
    have hne : n.pnodeId ≠ k := fun he => by
      rw [hk n hn he] at hc; exact Bool.false_ne_true hc
    exact amTags_amPush_other _ _ _ _ (fun he => hne he.symm)
  · rw [if_neg hc]

theorem suddenDropPass_mem_of_cond {cur l : List PNode} {p : PNode}
    (hp : p ∈ l) (hc : suddenDropCond cur p = true)
    (m : AMap (List NodeAnomaly)) :
    NodeAnomaly.sudden_drop ∈ amTags (suddenDropPass cur l m) p.pnodeId := by
  unfold suddenDropPass
  apply foldl_tags_of_elem (suddenDropPass_pushesOnly cur) hp _ m
  intro m'
  rw [if_pos hc, amTags_amPush_self]
  exact List.mem_append_right _ (List.mem_singleton_self _)

theorem exists_cond_of_mem_suddenDropPass {cur : List PNode} {k : String} :
    ∀ (l : List PNode) (m : AMap (List NodeAnomaly)),
      NodeAnomaly.sudden_drop ∈ amTags (suddenDropPass cur l m) k →
      NodeAnomaly.sudden_drop ∈ amTags m k ∨
        ∃ n ∈ l, n.pnodeId = k ∧ suddenDropCond cur n = true
  | [], m, h => Or.inl h
  | hd :: tl, m, h => by
      unfold suddenDropPass at h
      rw [List.foldl_cons] at h
      have h' := exists_cond_of_mem_suddenDropPass tl _ h
      rcases h' with h' | ⟨n, hn, hnk, hnc⟩
      · by_cases hc : suddenDropCond cur hd
        · rw [if_pos hc] at h'
          rcases mem_amTags_of_amPush h' with h1 | ⟨_, h2⟩
          · exact Or.inl h1
          · exact Or.inr ⟨hd, List.mem_cons_self _ _, h2.symm, hc⟩
        · rw [if_neg hc] at h'
          exact Or.inl h'
      · exact Or.inr ⟨n, List.mem_cons_of_mem _ hn, hnk, hnc⟩

theorem isolatedPass_pushesOnly (iso : List String) :
    PushesOnly NodeAnomaly.isolated
      (fun acc n =>
        if getRegionKey n ∈ iso then
          if NodeAnomaly.isolated ∈ (amGet acc n.pnodeId).getD [] then acc
          else amPush acc n.pnodeId NodeAnomaly.isolated
        else acc) := by
  intro m n
  by_cases h1 : getRegionKey n ∈ iso
  · by_cases h2 : NodeAnomaly.isolated ∈ (amGet m n.pnodeId).getD []
    · exact Or.inl (by simp [h1, h2])
    · exact Or.inr ⟨n.pnodeId, by simp [h1, h2]⟩
  · exact Or.inl (by simp [h1])

theorem mem_isolatedPass_of_mem {cur : List PNode} {iso : List String}
    {m : AMap (List NodeAnomaly)} {k : String} {x : NodeAnomaly}
    (h : x ∈ amTags m k) : x ∈ amTags (isolatedPass cur iso m) k := by
  unfold isolatedPass
  by_cases hiso : iso = []
  · rw [if_pos hiso]; exact h
  · rw [if_neg hiso]
    exact foldl_tags_mono (isolatedPass_pushesOnly iso) cur h

theorem mem_of_mem_isolatedPass {cur : List PNode} {iso : List String}
    {m : AMap (List NodeAnomaly)} {k : String} {x : NodeAnomaly}
    (hx : x ≠ NodeAnomaly.isolated)
    (h : x ∈ amTags (isolatedPass cur iso m) k) : x ∈ amTags m k := by
  unfold isolatedPass at h
  by_cases hiso : iso = []
  · rwa [if_pos hiso] at h
  · rw [if_neg hiso] at h
    exact foldl_tags_of_ne (isolatedPass_pushesOnly iso) cur hx h

theorem isolatedPass_tags_eq {cur : List PNode} {iso : List String} {k : String}
    (hk : ∀ n ∈ cur, n.pnodeId = k → getRegionKey n ∉ iso)
    (m : AMap (List NodeAnomaly)) :
    amTags (isolatedPass cur iso m) k = amTags m k := by
  unfold isolatedPass
  by_cases hiso : iso = []
  · rw [if_pos hiso]
  · rw [if_neg hiso]
    apply foldl_tags_invariant cur
    intro m' n hn
    by_cases h1 : getRegionKey n ∈ iso
    · have hne : n.pnodeId ≠ k := fun he => hk n hn he h1
      rw [if_pos h1]
      by_cases h2 : NodeAnomaly.isolated ∈ (amGet m' n.pnodeId).getD []
      · rw [if_pos h2]
      · rw [if_neg h2]
        exact amTags_amPush_other _ _ _ _ (fun he => hne he.symm)
    · rw [if_neg h1]

theorem isolatedPass_mem_of_key {cur : List PNode} {iso : List String}
    {p : PNode} (hp : p ∈ cur) (hkey : getRegionKey p ∈ iso)
    (m : AMap (List NodeAnomaly)) :
    NodeAnomaly.isolated ∈ amTags (isolatedPass cur iso m) p.pnodeId := by
  unfold isolatedPass
  rw [if_neg (List.ne_nil_of_mem hkey)]
  apply foldl_tags_of_elem (isolatedPass_pushesOnly iso) hp _ m
  intro m'
  rw [if_pos hkey]
  by_cases h2 : NodeAnomaly.isolated ∈ (amGet m' p.pnodeId).getD []
  · rw [if_pos h2]; exact h2
  · rw [if_neg h2, amTags_amPush_self]
    exact List.mem_append_right _ (List.mem_singleton_self _)

theorem blackHolePass_pushesOnly (now : ℚ) :
    PushesOnly NodeAnomaly.black_hole
      (fun acc n =>
        if blackHoleCond now n then
          if NodeAnomaly.black_hole ∈ (amGet acc n.pnodeId).getD [] then acc
          else amPush acc n.pnodeId NodeAnomaly.black_hole
        else acc) := by
  intro m n
  by_cases h1 : blackHoleCond now n
  · by_cases h2 : NodeAnomaly.black_hole ∈ (amGet m n.pnodeId).getD []
    · exact Or.inl (by simp [h1, h2])
    · exact Or.inr ⟨n.pnodeId, by simp [h1, h2]⟩
  · exact Or.inl (by simp [h1])

theorem mem_blackHolePass_of_mem {now : ℚ} {cur : List PNode}
    {m : AMap (List NodeAnomaly)} {k : String} {x : NodeAnomaly}
    (h : x ∈ amTags m k) : x ∈ amTags (blackHolePass now cur m) k :=
  foldl_tags_mono (blackHolePass_pushesOnly now) cur h

theorem mem_of_mem_blackHolePass {now : ℚ} {cur : List PNode}
    {m : AMap (List NodeAnomaly)} {k : String} {x : NodeAnomaly}
    (hx : x ≠ NodeAnomaly.black_hole)
    (h : x ∈ amTags (blackHolePass now cur m) k) : x ∈ amTags m k :=
  foldl_tags_of_ne (blackHolePass_pushesOnly now) cur hx h

theorem blackHolePass_mem_of_cond {now : ℚ} {cur : List PNode} {p : PNode}
    (hp : p ∈ cur) (hc : blackHoleCond now p = true)
    (m : AMap (List NodeAnomaly)) :
    NodeAnomaly.black_hole ∈ amTags (blackHolePass now cur m) p.pnodeId := by
  unfold blackHolePass
  apply foldl_tags_of_elem (blackHolePass_pushesOnly now) hp _ m
  intro m'
  rw [if_pos hc]
  by_cases h2 : NodeAnomaly.black_hole ∈ (amGet m' p.pnodeId).getD []
  · rw [if_pos h2]; exact h2
  · rw [if_neg h2, amTags_amPush_self]
    exact List.mem_append_right _ (List.mem_singleton_self _)

/-! ## Assembling `analyzeFailures` -/

theorem anomaliesOf_pair (now : ℚ) (prevS curS : PNodeSnapshot)
    (cur : List PNode) :
    anomaliesOf now [prevS, curS] cur =
      blackHolePass now cur
        (isolatedPass cur (isolatedRegionsOf cur)
          (suddenDropPass cur prevS.nodes [])) := rfl

theorem tagsOf_analyzeFailures {now : ℚ} {snaps : List PNodeSnapshot}
    {cur : List PNode} (h : cur ≠ []) (id : String) :
    tagsOf (analyzeFailures now snaps cur) id =
      amTags (anomaliesOf now snaps cur) id := by
  unfold analyzeFailures tagsOf
  rw [if_neg h]

/-- **C1** (amended).  For a pair of consecutive snapshots passed to
`analyzeFailures` with the later snapshot's *nonempty* roster as the
current roster, a node that is online in the earlier snapshot carries
`sudden_drop` exactly when the sudden-drop condition holds of it — i.e.
when it is absent from the current roster or offline there: so an
online-to-offline/absent node always carries the tag, and a node online in
both snapshots never does.  (The nonemptiness hypothesis is forced by the
early return of `analyzeFailures` on an empty roster; see the
counterexample.) -/
theorem c1_sudden_drop_pair (now : ℚ) (prevS curS : PNodeSnapshot) (p : PNode)
    (hne : curS.nodes ≠ [])
    (hnd : (List.map PNode.pnodeId prevS.nodes).Nodup)
    (hp : p ∈ prevS.nodes) (_hon : p.status = Status.online) :
    NodeAnomaly.sudden_drop ∈
        tagsOf (analyzeFailures now [prevS, curS] curS.nodes) p.pnodeId
      ↔ suddenDropCond curS.nodes p = true := by
  rw [tagsOf_analyzeFailures hne, anomaliesOf_pair]
  constructor
  · intro h
    have h1 := mem_of_mem_blackHolePass (by simp) h
    have h2 := mem_of_mem_isolatedPass (by simp) h1
    rcases exists_cond_of_mem_suddenDropPass prevS.nodes [] h2 with h3 | ⟨n, hn, hnk, hnc⟩
    · simp [amTags, amGet] at h3
    · have heq : n = p := List.inj_on_of_nodup_map hnd hn hp hnk
      rwa [heq] at hnc
  · intro hc
    exact mem_blackHolePass_of_mem
      (mem_isolatedPass_of_mem (suddenDropPass_mem_of_cond hp hc []))

/-- Witness for C1: a node online in the previous snapshot and offline in
the current one is tagged `sudden_drop`. -/
theorem c1_sudden_drop_pair_witness :
    NodeAnomaly.sudden_drop ∈
      tagsOf (analyzeFailures 0
        [{ timestamp := 0, nodes := [basicNode "x" 0 0 Status.online] },
         { timestamp := 1, nodes := [basicNode "x" 0 0 Status.offline] }]
        [basicNode "x" 0 0 Status.offline])
        (basicNode "x" 0 0 Status.online).pnodeId :=
  (c1_sudden_drop_pair 0
      { timestamp := 0, nodes := [basicNode "x" 0 0 Status.online] }
      { timestamp := 1, nodes := [basicNode "x" 0 0 Status.offline] }
      (basicNode "x" 0 0 Status.online)
      (by decide) (by decide) (by decide) rfl).mpr (by decide)

/-- Counterexample to C1 as stated: the node `"x"` is online in snapshot N
and absent from snapshot N+1 (whose roster is empty), yet `analyzeFailures`
returns no `sudden_drop` tag for it, because of the early return on an
empty current roster. -/
theorem c1_sudden_drop_counterexample :
    NodeAnomaly.sudden_drop ∉
      tagsOf (analyzeFailures 0
        [{ timestamp := 0, nodes := [basicNode "x" 0 0 Status.online] },
         { timestamp := 1, nodes := [] }]
        []) "x" := by decide

/-! ## C4 — snapshot store bound -/

/-- **C4**.  After any append the history holds at most 500 snapshots, the
retained snapshots are a suffix of the arrival order (most recent last,
with the appended snapshot last), and appending to a store already holding
exactly 500 evicts exactly the oldest entry. -/
theorem c4_snapshot_store_bound (prev : List PNodeSnapshot) (s : PNodeSnapshot) :
    (appendSnapshot prev s).length ≤ 500 ∧
    appendSnapshot prev s <:+ prev ++ [s] ∧
    (appendSnapshot prev s).getLast? = some s ∧
    (prev.length = 500 → appendSnapshot prev s = List.drop 1 prev ++ [s]) := by
  refine ⟨?_, ?_, ?_, ?_⟩
  · unfold appendSnapshot
    rw [List.length_drop]
    omega
  · exact List.drop_suffix _ _
  · show (List.drop ((prev ++ [s]).length - 500) (prev ++ [s])).getLast? = some s
    rcases le_or_lt ((prev ++ [s]).length) 500 with h | h
    · have h0 : (prev ++ [s]).length - 500 = 0 := by omega
      rw [h0, List.drop_zero, List.getLast?_concat]
    · have hle : (prev ++ [s]).length - 500 ≤ prev.length := by
        simp only [List.length_append, List.length_singleton]
        omega
      rw [List.drop_append_of_le_length hle, List.getLast?_concat]
  · intro h500
    show List.drop ((prev ++ [s]).length - 500) (prev ++ [s]) = List.drop 1 prev ++ [s]
    have h1 : (prev ++ [s]).length - 500 = 1 := by
      simp only [List.length_append, List.length_singleton, h500]
    rw [h1, List.drop_append_of_le_length (by omega)]

/-- Witness for C4: appending to a store of exactly 500 snapshots drops
the oldest one. -/
theorem c4_snapshot_store_bound_witness :
    appendSnapshot (List.replicate 500 ({ timestamp := 0, nodes := [] } : PNodeSnapshot))
        { timestamp := 1, nodes := [] }
      = List.drop 1 (List.replicate 500 ({ timestamp := 0, nodes := [] } : PNodeSnapshot))
          ++ [{ timestamp := 1, nodes := [] }] :=
  (c4_snapshot_store_bound _ _).2.2.2 (by rw [List.length_replicate])

/-! ## C2 — partition verdict priority -/

theorem isolatedRegionsOf_nil : isolatedRegionsOf [] = [] := rfl

theorem ne_nil_of_isolated {cur : List PNode}
    (h : isolatedRegionsOf cur ≠ []) : cur ≠ [] := by
  intro he
  rw [he, isolatedRegionsOf_nil] at h
  exact h rfl

/-- The isolated-region reason string is never empty. -/
theorem region_reason_ne_empty (x : String) :
    "Region outage or isolation in " ++ x ≠ "" := by
  intro he
  have hlen := congrArg String.length he
  rw [String.length_append] at hlen
  have h30 : ("Region outage or isolation in ").length = 30 := by decide
  rw [h30] at hlen
  simp at hlen

/-- **C2**.  On a roster that has an isolated region and simultaneously a
majority of offline nodes, the partition verdict takes the first-priority
branch: suspected with the isolated-region reason, not the
majority-offline reason. -/
theorem c2_partition_priority (now : ℚ) (snaps : List PNodeSnapshot)
    (cur : List PNode) (hiso : isolatedRegionsOf cur ≠ [])
    (_hmaj : onlineCountOf cur < offlineCountOf cur) :
    (analyzeFailures now snaps cur).partitionSuspected = true ∧
    (analyzeFailures now snaps cur).partitionReason =
      some ("Region outage or isolation in "
        ++ String.intercalate ", " (isolatedRegionsOf cur)) := by
  have hne : cur ≠ [] := ne_nil_of_isolated hiso
  have hraw : rawPartitionVerdict cur (anomaliesOf now snaps cur)
      = (true, some ("Region outage or isolation in "
          ++ String.intercalate ", " (isolatedRegionsOf cur))) := by
    simp only [rawPartitionVerdict]
    rw [if_pos hiso]
  have hfalsy : jsFalsyReason (some ("Region outage or isolation in "
      ++ String.intercalate ", " (isolatedRegionsOf cur))) = false := by
    simp [jsFalsyReason, region_reason_ne_empty]
  have hfb : applyCauseFallback cur (true, some ("Region outage or isolation in "
      ++ String.intercalate ", " (isolatedRegionsOf cur)))
      = (true, some ("Region outage or isolation in "
          ++ String.intercalate ", " (isolatedRegionsOf cur))) := by
    simp [applyCauseFallback, hfalsy]
  constructor
  · simp [analyzeFailures, if_neg hne, hraw, hfb]
  · simp [analyzeFailures, if_neg hne, hraw, hfb]

/-- Witness for C2: a 5-node single-bucket roster, 3 offline and 2 online,
satisfies both partition conditions and gets the isolated-region reason. -/
theorem c2_partition_priority_witness :
    (analyzeFailures 0 [] isolatedRoster).partitionSuspected = true ∧
    (analyzeFailures 0 [] isolatedRoster).partitionReason =
      some ("Region outage or isolation in "
        ++ String.intercalate ", " (isolatedRegionsOf isolatedRoster)) :=
  c2_partition_priority 0 [] isolatedRoster (by decide) (by decide)

/-! ## C9 — the probable-cause fallback is unreachable -/

theorem rawPartitionVerdict_cases (cur : List PNode)
    (anoms : AMap (List NodeAnomaly)) :
    rawPartitionVerdict cur anoms = (false, none) ∨
    ∃ s, rawPartitionVerdict cur anoms = (true, some s) ∧ s ≠ "" := by
  simp only [rawPartitionVerdict]
  split_ifs with h1 h2 h3
  · exact Or.inr ⟨_, rfl, region_reason_ne_empty _⟩
  · exact Or.inr ⟨_, rfl, by decide⟩
  · exact Or.inr ⟨_, rfl, by decide⟩
  · exact Or.inl rfl

/-- **C9**.  The probable-cause fallback never fires: `analyzeFailures`
computes exactly what it would compute without the fallback branch, and
whenever `partitionSuspected` is true the `partitionReason` is non-null. -/
theorem c9_fallback_unreachable (now : ℚ) (snaps : List PNodeSnapshot)
    (cur : List PNode) :
    analyzeFailures now snaps cur = analyzeFailuresNoFallback now snaps cur ∧
    ((analyzeFailures now snaps cur).partitionSuspected = true →
      (analyzeFailures now snaps cur).partitionReason ≠ none) := by
  by_cases hne : cur = []
  · subst hne
    refine ⟨rfl, ?_⟩
    intro h
    simp [analyzeFailures] at h
  · rcases rawPartitionVerdict_cases cur (anomaliesOf now snaps cur) with h | ⟨s, hs, hsne⟩
    · have hfb : applyCauseFallback cur (rawPartitionVerdict cur (anomaliesOf now snaps cur))
          = rawPartitionVerdict cur (anomaliesOf now snaps cur) := by
        rw [h]
        simp [applyCauseFallback]
      refine ⟨by simp [analyzeFailures, analyzeFailuresNoFallback, if_neg hne, hfb], ?_⟩
      intro hsus
      simp only [analyzeFailures, if_neg hne, hfb, h] at hsus
      cases hsus
    · have hfb : applyCauseFallback cur (rawPartitionVerdict cur (anomaliesOf now snaps cur))
          = rawPartitionVerdict cur (anomaliesOf now snaps cur) := by
        rw [hs]
        simp [applyCauseFallback, jsFalsyReason, hsne]
      refine ⟨by simp [analyzeFailures, analyzeFailuresNoFallback, if_neg hne, hfb], ?_⟩
      intro _
      simp only [analyzeFailures, if_neg hne, hfb, hs]
      simp [applyCauseFallback, jsFalsyReason, hsne]

/-- Witness for C9: a roster with one offline node makes the verdict
suspected (majority-offline rule) with a non-null reason. -/
theorem c9_fallback_unreachable_witness :
    (analyzeFailures 0 [] [basicNode "a" 0 0 Status.offline]).partitionReason ≠ none :=
  (c9_fallback_unreachable 0 [] [basicNode "a" 0 0 Status.offline]).2 (by decide)

/-! ## C3 — score bounds and exact tier boundaries -/

theorem clamp01_bounds (x : ℚ) : 0 ≤ clamp01 x ∧ clamp01 x ≤ 1 :=
  ⟨le_max_left 0 _, max_le (by norm_num) (min_le_left 1 x)⟩

/-- **C3**.  Health and reputation scores always lie in `[0, 1]`; the tier
of a health result is exactly `tierOf` of its score, and the tier
boundaries are exact: a score of exactly 0.4 is `warning` (not `bad`) and
a score of exactly 0.7 is `good` (not `warning`). -/
theorem c3_score_bounds_and_tiers (now : ℚ) (log10 : ℚ → ℚ) (n : PNode) :
    (0 ≤ (computeNodeHealth now log10 n).score ∧
      (computeNodeHealth now log10 n).score ≤ 1) ∧
    (0 ≤ (computeReputation n (computeNodeHealth now log10 n)).score ∧
      (computeReputation n (computeNodeHealth now log10 n)).score ≤ 1) ∧
    (computeNodeHealth now log10 n).tier
      = tierOf (computeNodeHealth now log10 n).score ∧
    tierOf 0.4 = Tier.warning ∧ tierOf 0.7 = Tier.good := by
  refine ⟨clamp01_bounds _, clamp01_bounds _, rfl, by decide, by decide⟩

/-! ## Reason-membership helpers for the health scorer -/

theorem mem_ite_singleton {c : Prop} [Decidable c] {s t : String}
    (h : t ∈ (if c then [s] else ([] : List String))) : t = s ∧ c := by
  split at h
  · exact ⟨List.mem_singleton.mp h, by assumption⟩
  · simp at h

theorem mem_ite_singleton_or {c : Prop} [Decidable c] {s t : String}
    {l : List String} (h : t ∈ (if c then [s] else l)) : t = s ∨ t ∈ l := by
  split at h
  · exact Or.inl (List.mem_singleton.mp h)
  · exact Or.inr h

/-- Membership in the health reasons list, segment by segment: any reason
string equals one of the six rule strings (with its condition) or the
default positive reason. -/
theorem mem_reasons_cases (now : ℚ) (log10 : ℚ → ℚ) (n : PNode) (t : String)
    (h : t ∈ (computeNodeHealth now log10 n).reasons) :
    (t = "Low peer count in gossip" ∧ n.peersSeen.getD 0 < 3) ∨
    (t = "Peers lack geographic / ASN diversity" ∧ diversityScoreOf n < 0.4) ∨
    (t = "High gossip response latency" ∧
      ∃ ms, n.responseLatency = some ms ∧ ms > 350) ∨
    (t = "Uptime below target SLA" ∧ clamp01 (n.uptime.getD 0.8) < 0.8) ∨
    (t = "Data availability below network baseline" ∧
      clamp01 (n.dataAvailability.getD 0.9) < 0.8) ∨
    (t = "Not seen in recent gossip window" ∧
      ∃ ms, n.lastSeen = some ms ∧ (now - ms) / 1000 > 600) ∨
    t = "Healthy gossip connectivity and recent activity" := by
  simp only [computeNodeHealth] at h
  rcases mem_ite_singleton_or h with ht | h
  · exact Or.inr (Or.inr (Or.inr (Or.inr (Or.inr (Or.inr ht)))))
  · simp only [List.mem_append] at h
    rcases h with ((((h | h) | h) | h) | h) | h
    · exact Or.inl (mem_ite_singleton h)
    · exact Or.inr (Or.inl (mem_ite_singleton h))
    · rcases hrl : n.responseLatency with _ | ms
      · simp only [hrl] at h
        simp at h
      · simp only [hrl] at h
        rcases mem_ite_singleton h with ⟨ht, hc⟩
        exact Or.inr (Or.inr (Or.inl ⟨ht, ms, rfl, hc⟩))
    · exact Or.inr (Or.inr (Or.inr (Or.inl (mem_ite_singleton h))))
    · exact Or.inr (Or.inr (Or.inr (Or.inr (Or.inl (mem_ite_singleton h)))))
    · rcases hls : n.lastSeen with _ | ms
      · simp only [hls] at h
        simp at h
      · simp only [hls] at h
        rcases mem_ite_singleton h with ⟨ht, hc⟩
        exact Or.inr (Or.inr (Or.inr (Or.inr (Or.inr (Or.inl ⟨ht, ms, rfl, hc⟩)))))

/-! ## C10 — a present-but-zero peer diversity equals an absent one -/

/-- **C10**.  A node whose peer-diversity telemetry is present and equal to
0 scores exactly like the identical node with the field absent: the
diversity sub-score is 0.5 in both cases (the JS `||` treats the raw 0 as
falsy) and the diversity reason does not fire. -/
theorem c10_diversity_zero_is_default (now : ℚ) (log10 : ℚ → ℚ) (n : PNode) :
    computeNodeHealth now log10 { n with peerDiversity := some 0 }
      = computeNodeHealth now log10 { n with peerDiversity := none } ∧
    diversityScoreOf { n with peerDiversity := some 0 } = 0.5 ∧
    diversityScoreOf { n with peerDiversity := none } = 0.5 ∧
    "Peers lack geographic / ASN diversity" ∉
      (computeNodeHealth now log10 { n with peerDiversity := some 0 }).reasons := by
  have hds : diversityScoreOf { n with peerDiversity := some 0 } = 0.5 := by
    simp [diversityScoreOf, jsOrQ, clamp01]
    norm_num
  have hds' : diversityScoreOf { n with peerDiversity := none } = 0.5 := by
    simp [diversityScoreOf, jsOrQ, clamp01]
    norm_num
  refine ⟨rfl, hds, hds', ?_⟩
  intro hmem
  rcases mem_reasons_cases now log10 _ _ hmem with
    ⟨ht, _⟩ | ⟨_, hc⟩ | ⟨ht, _⟩ | ⟨ht, _⟩ | ⟨ht, _⟩ | ⟨ht, _⟩ | ht
  · exact absurd ht (by decide)
  · rw [hds] at hc
    norm_num at hc
  · exact absurd ht (by decide)
  · exact absurd ht (by decide)
  · exact absurd ht (by decide)
  · exact absurd ht (by decide)
  · exact absurd ht (by decide)

/-! ## C8 — unparseable `lastSeen` -/

/-- **C8** (amended).  An unparseable `lastSeen` never surfaces as an
error, but the two consumers recover differently: the failure detector
treats the age as infinite (`ageMs` returns `Infinity`), so the node
satisfies the last-seen-age black-hole condition and is tagged
`black_hole`; the health scorer, however, leaves the freshness sub-score
at its neutral default 0.5 (not the minimal 0) and does *not* fire the
staleness reason, because the whole freshness branch is skipped when the
timestamp does not parse. -/
theorem c8_unparseable_lastseen (now : ℚ) (log10 : ℚ → ℚ)
    (snaps : List PNodeSnapshot) (cur : List PNode) (n : PNode)
    (hls : n.lastSeen = none) (hcur : n ∈ cur) :
    freshnessScoreOf now n = 0.5 ∧
    "Not seen in recent gossip window" ∉ (computeNodeHealth now log10 n).reasons ∧
    ageMsOf now n = none ∧
    ageExceeds now n (10 * 60 * 1000) = true ∧
    blackHoleCond now n = true ∧
    NodeAnomaly.black_hole ∈ tagsOf (analyzeFailures now snaps cur) n.pnodeId := by
  have hfresh : freshnessScoreOf now n = 0.5 := by
    simp [freshnessScoreOf, hls]
  have hage : ageMsOf now n = none := by
    simp [ageMsOf, hls]
  have hexceeds : ageExceeds now n (10 * 60 * 1000) = true := by
    simp [ageExceeds, hage]
  have hbh : blackHoleCond now n = true := by
    simp [blackHoleCond, hexceeds]
  refine ⟨hfresh, ?_, hage, hexceeds, hbh, ?_⟩
  · intro hmem
    rcases mem_reasons_cases now log10 n _ hmem with
      ⟨ht, _⟩ | ⟨ht, _⟩ | ⟨ht, _⟩ | ⟨ht, _⟩ | ⟨ht, _⟩ | ⟨_, ms, hms, _⟩ | ht
    · exact absurd ht (by decide)
    · exact absurd ht (by decide)
    · exact absurd ht (by decide)
    · exact absurd ht (by decide)
    · exact absurd ht (by decide)
    · rw [hls] at hms
      cases hms
    · exact absurd ht (by decide)
  · have hne : cur ≠ [] := List.ne_nil_of_mem hcur
    rw [tagsOf_analyzeFailures hne]
    simp only [anomaliesOf]
    exact blackHolePass_mem_of_cond hcur hbh _

/-- Witness for C8 at a concrete stale node. -/
theorem c8_unparseable_lastseen_witness :
    freshnessScoreOf 0 staleNode = 0.5 ∧
    "Not seen in recent gossip window" ∉
      (computeNodeHealth 0 (fun _ => 0) staleNode).reasons ∧
    ageMsOf 0 staleNode = none ∧
    ageExceeds 0 staleNode (10 * 60 * 1000) = true ∧
    blackHoleCond 0 staleNode = true ∧
    NodeAnomaly.black_hole ∈ tagsOf (analyzeFailures 0 [] [staleNode]) staleNode.pnodeId :=
  c8_unparseable_lastseen 0 (fun _ => 0) [] [staleNode] staleNode rfl
    (List.mem_singleton_self _)

/-- Counterexample to C8 as stated: with an unparseable timestamp the
health scorer's freshness signal stays at the neutral 0.5 — not the
minimal value — and the staleness reason does not fire. -/
theorem c8_unparseable_lastseen_counterexample :
    freshnessScoreOf 0 staleNode = 0.5 ∧ freshnessScoreOf 0 staleNode ≠ 0 ∧
    "Not seen in recent gossip window" ∉
      (computeNodeHealth 0 (fun _ => 0) staleNode).reasons := by decide

/-! ## C6 — the offline/stale/zero-peers scenario -/

/-- **C6** (amended).  For a node with status `offline`, `lastSeen` 20
minutes in the past, peers-seen 0 and all other optional telemetry absent,
`computeNodeHealth` scores exactly 0.44 — tier `warning`, not the `bad`
the spec scenario asserts — with reasons exactly
`["Low peer count in gossip", "Not seen in recent gossip window"]`, and
`analyzeFailures` tags the node `black_hole`.  (`log10 1 = 0` pins the
only value of `Math.log10` the scenario touches.) -/
theorem c6_scenario_offline_stale (now : ℚ) (log10 : ℚ → ℚ)
    (snaps : List PNodeSnapshot) (hlog : log10 1 = 0) :
    (computeNodeHealth now log10 (scenarioNode now)).score = 0.44 ∧
    (computeNodeHealth now log10 (scenarioNode now)).tier = Tier.warning ∧
    (computeNodeHealth now log10 (scenarioNode now)).reasons =
      ["Low peer count in gossip", "Not seen in recent gossip window"] ∧
    NodeAnomaly.black_hole ∈
      tagsOf (analyzeFailures now snaps [scenarioNode now]) "n1" := by
  have hkey : now - (now - 20 * 60 * 1000) = 1200000 := by ring
  have hbh : blackHoleCond now (scenarioNode now) = true := by
    simp [blackHoleCond, ageExceeds, ageMsOf, scenarioNode, hkey]
  refine ⟨?_, ?_, ?_, ?_⟩
  · simp only [computeNodeHealth, scenarioNode, diversityScoreOf, latencyScoreOf,
      freshnessScoreOf, statusBaseOf, jsOrQ, Option.getD_some, Option.getD_none]
    norm_num [clamp01, hlog, hkey]
  · simp only [computeNodeHealth, scenarioNode, diversityScoreOf, latencyScoreOf,
      freshnessScoreOf, statusBaseOf, jsOrQ, Option.getD_some, Option.getD_none]
    norm_num [clamp01, tierOf, hlog, hkey]
  · simp only [computeNodeHealth, scenarioNode, diversityScoreOf, latencyScoreOf,
      freshnessScoreOf, statusBaseOf, jsOrQ, Option.getD_some, Option.getD_none]
    norm_num [clamp01, tierOf, hlog, hkey]
    intro h
    exact absurd h (by decide)
  · rw [tagsOf_analyzeFailures (by simp)]
    simp only [anomaliesOf]
    have : "n1" = (scenarioNode now).pnodeId := rfl
    rw [this]
    exact blackHolePass_mem_of_cond (List.mem_singleton_self _) hbh _

/-- Witness for C6 at `now = 0` with `Math.log10` pinned at `log10 1 = 0`. -/
theorem c6_scenario_offline_stale_witness :
    (computeNodeHealth 0 (fun _ => 0) (scenarioNode 0)).score = 0.44 ∧
    (computeNodeHealth 0 (fun _ => 0) (scenarioNode 0)).tier = Tier.warning ∧
    (computeNodeHealth 0 (fun _ => 0) (scenarioNode 0)).reasons =
      ["Low peer count in gossip", "Not seen in recent gossip window"] ∧
    NodeAnomaly.black_hole ∈
      tagsOf (analyzeFailures 0 [] [scenarioNode 0]) "n1" :=
  c6_scenario_offline_stale 0 (fun _ => 0) [] rfl

/-- Counterexample to C6 as stated: the scenario node's tier is `warning`
(its score is 0.44), not the claimed `bad`. -/
theorem c6_scenario_offline_stale_counterexample :
    (computeNodeHealth 0 (fun _ => 0) (scenarioNode 0)).tier ≠ Tier.bad := by decide

/-! ## C5 — region buckets and the isolation threshold -/

theorem keys_amSet {α : Type} (m : AMap α) (k : String) (v : α) :
    List.map Prod.fst (amSet m k v)
      = if List.any m (fun p => p.1 = k) then List.map Prod.fst m
        else List.map Prod.fst m ++ [k] := by
  unfold amSet
  by_cases h : List.any m (fun p => p.1 = k)
  · rw [if_pos h, if_pos h, List.map_map]
    apply List.map_congr_left
    intro p _
    by_cases hk : p.1 = k
    · simp [hk]
    · simp [hk]
  · rw [if_neg h, if_neg h]
    simp

theorem nodup_keys_amSet {α : Type} (m : AMap α) (k : String) (v : α)
    (h : (List.map Prod.fst m).Nodup) :
    (List.map Prod.fst (amSet m k v)).Nodup := by
  rw [keys_amSet]
  by_cases hany : List.any m (fun p => p.1 = k)
  · rwa [if_pos hany]
  · rw [if_neg hany]
    have hninfst : k ∉ List.map Prod.fst m := by
      intro hk
      rcases List.mem_map.mp hk with ⟨p, hp, hpk⟩
      have hfalse : List.any m (fun p => decide (p.1 = k)) = false :=
        Bool.eq_false_iff.mpr hany
      exact (List.any_eq_false.mp hfalse p hp) (by simpa using hpk)
    simp [List.nodup_append, h, hninfst]

theorem regionTotalsOf_keys_nodup (nodes : List PNode) :
    (List.map Prod.fst (regionTotalsOf nodes)).Nodup := by
  unfold regionTotalsOf
  suffices h : ∀ (l : List PNode) (m : AMap (ℕ × ℕ)),
      (List.map Prod.fst m).Nodup →
      (List.map Prod.fst (List.foldl
        (fun acc n =>
          let key := getRegionKey n
          let stats := (amGet acc key).getD (0, 0)
          amSet acc key
            (stats.1 + 1, if n.status = Status.offline then stats.2 + 1 else stats.2))
        m l)).Nodup by
    exact h nodes [] (by simp)
  intro l
  induction l with
  | nil => intro m hm; exact hm
  | cons hd tl ih =>
      intro m hm
      rw [List.foldl_cons]
      exact ih _ (nodup_keys_amSet _ _ _ hm)

theorem mem_of_amGet_eq_some {α : Type} {m : AMap α} {k : String} {v : α}
    (h : amGet m k = some v) : (k, v) ∈ m := by
  unfold amGet at h
  rcases Option.map_eq_some'.mp h with ⟨p, hfind, hsnd⟩
  have hk : p.1 = k := by simpa using List.find?_some hfind
  have hp : p ∈ m := List.mem_of_find?_eq_some hfind
  have : p = (k, v) := by
    rcases p with ⟨a, b⟩
    cases hk
    cases hsnd
    rfl
  rwa [this] at hp

theorem amGet_eq_some_of_mem {α : Type} :
    ∀ {m : AMap α} {k : String} {v : α},
      (List.map Prod.fst m).Nodup → (k, v) ∈ m → amGet m k = some v := by
  intro m
  induction m with
  | nil => intro k v _ hm; cases hm
  | cons hd tl ih =>
      intro k v hnd hm
      have hnd' : (hd.1 :: List.map Prod.fst tl).Nodup := by simpa using hnd
      by_cases hk : hd.1 = k
      · have hhd : hd = (k, v) := by
          rcases List.mem_cons.mp hm with h | h
          · exact h.symm
          · exfalso
            have hkeys : k ∈ List.map Prod.fst tl :=
              List.mem_map.mpr ⟨(k, v), h, rfl⟩
            have hnin := (List.nodup_cons.mp hnd').1
            rw [hk] at hnin
            exact hnin hkeys
        unfold amGet
        rw [List.find?_cons_of_pos _ (by simpa using hk), hhd]
        rfl
      · have htl : (k, v) ∈ tl := by
          rcases List.mem_cons.mp hm with h | h
          · exfalso; rw [← h] at hk; exact hk rfl
          · exact h
        unfold amGet
        rw [List.find?_cons_of_neg _ (by simpa using hk)]
        exact ih (List.nodup_cons.mp hnd').2 htl

/-- Membership in the isolated-region list, in terms of the bucket's
counts. -/
theorem mem_isolatedRegionsOf {nodes : List PNode} {k : String} :
    k ∈ isolatedRegionsOf nodes ↔
      ∃ v : ℕ × ℕ, amGet (regionTotalsOf nodes) k = some v ∧
        5 ≤ v.1 ∧ (0.6 : ℚ) ≤ (v.2 : ℚ) / (v.1 : ℚ) := by
  unfold isolatedRegionsOf
  constructor
  · intro h
    rcases List.mem_map.mp h with ⟨p, hp, hpk⟩
    rcases List.mem_filter.mp hp with ⟨hpm, hpred⟩
    have hpred' := of_decide_eq_true hpred
    refine ⟨p.2, ?_, hpred'.1, hpred'.2⟩
    rw [← hpk]
    exact amGet_eq_some_of_mem (regionTotalsOf_keys_nodup nodes) (by simpa using hpm)
  · intro ⟨v, hv, h5, hr⟩
    have hm := mem_of_amGet_eq_some hv
    exact List.mem_map.mpr ⟨(k, v),
      List.mem_filter.mpr ⟨hm, decide_eq_true ⟨h5, hr⟩⟩, rfl⟩

theorem isolated_not_mem_afterDropOf (snaps : List PNodeSnapshot)
    (cur : List PNode) (k : String) :
    NodeAnomaly.isolated ∉ amTags (afterDropOf snaps cur) k := by
  unfold afterDropOf
  rcases List.get? snaps.reverse 1 with _ | prev
  · simp [amTags, amGet]
  · rcases List.get? snaps.reverse 0 with _ | latest
    · simp [amTags, amGet]
    · intro h
      have := mem_of_mem_suddenDropPass (by simp) h
      simp [amTags, amGet] at this

/-- **C5**.  Over the current roster, a bucket with exactly 5 nodes and 3
offline (ratio 0.6) is isolated and each of its nodes is tagged
`isolated`; a bucket with exactly 5 nodes and 2 offline (ratio 0.4) is not
isolated and none of its nodes receives the tag. -/
theorem c5_isolation_threshold (now : ℚ) (snaps : List PNodeSnapshot)
    (cur : List PNode) (k1 k2 : String)
    (hnd : (List.map PNode.pnodeId cur).Nodup)
    (h1 : amGet (regionTotalsOf cur) k1 = some (5, 3))
    (h2 : amGet (regionTotalsOf cur) k2 = some (5, 2)) :
    (k1 ∈ isolatedRegionsOf cur ∧
      ∀ p ∈ cur, getRegionKey p = k1 →
        NodeAnomaly.isolated ∈ tagsOf (analyzeFailures now snaps cur) p.pnodeId) ∧
    (k2 ∉ isolatedRegionsOf cur ∧
      ∀ p ∈ cur, getRegionKey p = k2 →
        NodeAnomaly.isolated ∉ tagsOf (analyzeFailures now snaps cur) p.pnodeId) := by
  have hne : cur ≠ [] := by
    intro he
    rw [he] at h1
    simp [regionTotalsOf, amGet] at h1
  have hk1 : k1 ∈ isolatedRegionsOf cur :=
    mem_isolatedRegionsOf.mpr ⟨(5, 3), h1, by norm_num, by norm_num⟩
  have hk2 : k2 ∉ isolatedRegionsOf cur := by
    intro hmem
    rcases mem_isolatedRegionsOf.mp hmem with ⟨v, hv, _, hvr⟩
    rw [h2] at hv
    cases hv
    norm_num at hvr
  refine ⟨⟨hk1, ?_⟩, hk2, ?_⟩
  · intro p hp hkey
    rw [tagsOf_analyzeFailures hne, anomaliesOf]
    exact mem_blackHolePass_of_mem
      (isolatedPass_mem_of_key hp (hkey ▸ hk1) _)
  · intro p hp hkey hmem
    rw [tagsOf_analyzeFailures hne, anomaliesOf] at hmem
    have hm1 := mem_of_mem_blackHolePass (by simp) hmem
    have hinv : ∀ n ∈ cur, n.pnodeId = p.pnodeId →
        getRegionKey n ∉ isolatedRegionsOf cur := by
      intro n hn hid
      have : n = p := List.inj_on_of_nodup_map hnd hn hp hid
      rw [this, hkey]
      exact hk2
    rw [isolatedPass_tags_eq hinv] at hm1
    exact isolated_not_mem_afterDropOf snaps cur p.pnodeId hm1

/-- Witness for C5 on the two-bucket roster: bucket "0:0" (5 nodes, 3
offline) is isolated and its node "a" is tagged; bucket "40:0" (5 nodes, 2
offline) is not and its node "f" is not tagged. -/
theorem c5_isolation_threshold_witness :
    "0:0" ∈ isolatedRegionsOf twoBucketRoster ∧
    NodeAnomaly.isolated ∈ tagsOf (analyzeFailures 0 [] twoBucketRoster)
      (basicNode "a" 0 0 Status.offline).pnodeId ∧
    "40:0" ∉ isolatedRegionsOf twoBucketRoster ∧
    NodeAnomaly.isolated ∉ tagsOf (analyzeFailures 0 [] twoBucketRoster)
      (basicNode "f" 40 0 Status.offline).pnodeId := by
  have H := c5_isolation_threshold 0 [] twoBucketRoster "0:0" "40:0"
    (by decide) (by decide) (by decide)
  exact ⟨H.1.1, H.1.2 _ (by decide) (by decide), H.2.1,
    H.2.2 _ (by decide) (by decide)⟩

/-! ## C7 — synthetic time-travel history -/

theorem windowSecOf_pos (mode : TimeMode) : 0 < windowSecOf mode := by
  cases mode <;> norm_num [windowSecOf]

/-- One synthetic step changes a node's status by at most one downgrade
along `online → unknown → offline`. -/
theorem mutateNode_status_downgrade (now w : ℚ) (i idx : ℕ) (n : PNode) :
    downgradeOk n.status (mutateNode now w i idx n).status := by
  unfold downgradeOk
  simp only [mutateNode]
  by_cases h1 : n.status = Status.online ∧ (0.9 : ℚ) < jitterOf idx i
  · rw [if_pos h1]
    exact Or.inr (Or.inl ⟨h1.1, rfl⟩)
  · rw [if_neg h1]
    by_cases h2 : n.status = Status.unknown ∧ (0.8 : ℚ) < jitterOf idx i
    · rw [if_pos h2]
      exact Or.inr (Or.inr ⟨h2.1, rfl⟩)
    · rw [if_neg h2]
      exact Or.inl rfl

theorem forall2_downgrade_enumFrom (now w : ℚ) (i : ℕ) :
    ∀ (l : List PNode) (k : ℕ),
      List.Forall₂ (fun a b => downgradeOk a.status b.status) l
        (List.map (fun p => mutateNode now w i p.1 p.2) (List.enumFrom k l))
  | [], _ => List.Forall₂.nil
  | x :: xs, k => by
      simp only [List.enumFrom, List.map_cons]
      exact List.Forall₂.cons (mutateNode_status_downgrade now w i k x)
        (forall2_downgrade_enumFrom now w i xs (k + 1))

/-- **C7** (amended).  When the snapshot store is *nonempty* but no stored
snapshot falls within the requested window, the resolver returns exactly
the 12 synthetic snapshots given by the deterministic formula
`synthSnapshot` of its inputs alone, each flagged synthetic, with strictly
increasing timestamps that span the window (all lie inside it and the last
one is `now`), and each node's status downgraded by at most one step along
`online → unknown → offline`.  (On an *empty* store the resolver
short-circuits to the live view and synthesizes nothing; see the
counterexample.) -/
theorem c7_synthetic_history (now : ℚ) (mode : TimeMode)
    (snapshots : List PNodeSnapshot) (nodes : List PNode)
    (hsnaps : snapshots ≠ [])
    (hempty : List.filter
      (fun s => decide (now - s.timestamp ≤ windowSecOf mode * 1000)) snapshots = []) :
    (resolveWindow now mode snapshots nodes).1
        = List.map (synthSnapshot now (windowSecOf mode) nodes) (List.range 12) ∧
    (resolveWindow now mode snapshots nodes).2 = true ∧
    (resolveWindow now mode snapshots nodes).1.length = 12 ∧
    (∀ s ∈ (resolveWindow now mode snapshots nodes).1, s.synthetic = true) ∧
    List.Pairwise (fun a b => a.timestamp < b.timestamp)
      (resolveWindow now mode snapshots nodes).1 ∧
    (∀ s ∈ (resolveWindow now mode snapshots nodes).1,
      now - windowSecOf mode * 1000 < s.timestamp ∧ s.timestamp ≤ now) ∧
    Option.map PNodeSnapshot.timestamp
      ((resolveWindow now mode snapshots nodes).1.getLast?) = some now ∧
    (∀ s ∈ (resolveWindow now mode snapshots nodes).1,
      List.Forall₂ (fun a b => downgradeOk a.status b.status) nodes s.nodes) := by
  have hw : 0 < windowSecOf mode := windowSecOf_pos mode
  have hw1000 : 0 < windowSecOf mode * 1000 := by positivity
  have hres : resolveWindow now mode snapshots nodes
      = (List.map (synthSnapshot now (windowSecOf mode) nodes) (List.range 12), true) := by
    simp only [resolveWindow]
    rw [if_neg hsnaps, hempty, if_pos rfl]
  rw [hres]
  refine ⟨rfl, rfl, by simp, ?_, ?_, ?_, ?_, ?_⟩
  · intro s hs
    rcases List.mem_map.mp hs with ⟨i, _, rfl⟩
    rfl
  · apply List.Pairwise.map
    · intro a b hab
      show (synthSnapshot now (windowSecOf mode) nodes a).timestamp
        < (synthSnapshot now (windowSecOf mode) nodes b).timestamp
      simp only [synthSnapshot]
      have hcast : ((a : ℚ) + 1) < ((b : ℚ) + 1) := by
        have : (a : ℚ) < (b : ℚ) := by exact_mod_cast hab
        linarith
      have hq : ((a : ℚ) + 1) / 12 < ((b : ℚ) + 1) / 12 :=
        (div_lt_div_iff_of_pos_right (by norm_num)).2 hcast
      have := mul_lt_mul_of_pos_right hq hw1000
      linarith
    · exact List.pairwise_lt_range 12
  · intro s hs
    rcases List.mem_map.mp hs with ⟨i, hi, rfl⟩
    have hi12 : i < 12 := List.mem_range.mp hi
    simp only [synthSnapshot]
    constructor
    · have hpos : (0 : ℚ) < ((i : ℚ) + 1) / 12 * (windowSecOf mode * 1000) := by
        positivity
      linarith
    · have hle1 : ((i : ℚ) + 1) / 12 ≤ 1 := by
        rw [div_le_one (by norm_num)]
        have : (i : ℚ) + 1 ≤ 12 := by exact_mod_cast hi12
        exact this
      have := mul_le_of_le_one_left (le_of_lt hw1000) hle1
      linarith
  · rw [show (12 : ℕ) = 11 + 1 from rfl, List.range_succ, List.map_append,
      List.map_cons, List.map_nil, List.getLast?_concat]
    show some (synthSnapshot now (windowSecOf mode) nodes 11).timestamp = some now
    congr 1
    simp only [synthSnapshot]
    push_cast
    ring
  · intro s hs
    rcases List.mem_map.mp hs with ⟨i, _, rfl⟩
    exact forall2_downgrade_enumFrom now (windowSecOf mode) i nodes 0

/-- Witness for C7: a one-hour window over a store whose single snapshot
is far older than the window. -/
theorem c7_synthetic_history_witness :
    (resolveWindow 10000000000 TimeMode.oneHour [{ timestamp := 0, nodes := [] }]
      [basicNode "a" 0 0 Status.online]).1.length = 12 ∧
    (resolveWindow 10000000000 TimeMode.oneHour [{ timestamp := 0, nodes := [] }]
      [basicNode "a" 0 0 Status.online]).2 = true := by
  have H := c7_synthetic_history 10000000000 TimeMode.oneHour
    [{ timestamp := 0, nodes := [] }] [basicNode "a" 0 0 Status.online]
    (by decide) (by decide)
  exact ⟨H.2.2.1, H.2.1⟩

/-- Counterexample to C7 as stated: with an *empty* store no snapshot
falls within the window, yet the resolver returns no synthetic snapshots
at all (the `snapshots.length === 0` early return yields the live view). -/
theorem c7_synthetic_history_counterexample :
    (resolveWindow 0 TimeMode.oneHour [] [basicNode "a" 0 0 Status.online]).1 = [] ∧
    (resolveWindow 0 TimeMode.oneHour [] [basicNode "a" 0 0 Status.online]).2 = false := by
  constructor <;> rfl
